import Mathlib

/-!
# potoo: the command-line driver

A shallow embedding of `main` (main.cpp) and of `struct Options` (src/Options.hxx).

* Values of C++ `int` are `Int`; `main` performs no arithmetic on them, it only copies and
  compares them.
* `boost::optional<T>` is `Option T`.
* `std::vector<Crop>` is `List Crop`.
* A thrown `std::exception` is the `error` case of `Except String`, the string being `what()`.
* Calls into collaborators that are not part of these two files (the `PDF` class, the
  command-line parser, Boost property trees, ImageMagick, the standard streams) are recorded
  in a trace of `Event`s, in the order in which `main` performs them; what the collaborators
  answer is a parameter (`Env`).
-/

namespace Potoo

/-! ## Options.hxx -/

/-- A C++ `float`. The driver never computes with these values, it only copies them, so a
float is represented by its bit pattern. -/
structure CFloat where
  bits : Nat
deriving DecidableEq, Repr

/-- The struct `Options::Crop`: one set of crop settings. -/
structure Crop where
  type : String
  x : CFloat
  y : CFloat
  w : CFloat
  h : CFloat
deriving DecidableEq, Repr

/-- The struct `Options`, fields in declaration order. -/
structure Options where
  _crops : List Crop
  _inputPDF : String
  _dpi : Int
  _parallel_processing : Bool
  _language : String
  _start : Option Int
  _end : Option Int
  _page : Option Int
deriving DecidableEq, Repr

/-- The constructor `Options::Options(inputPDF, dpi, parallel_processing, language)`.
Its initialiser list is
`_inputPDF(inputPDF), _dpi(dpi), _parallel_processing(parallel_processing),
 _language(language), _start(-1), _end(-1)`:
`_start` and `_end` are `boost::optional<int>` initialised from the `int` value `-1`, hence
engaged; `_page` and `_crops` are default-constructed. -/
def Options.construct (inputPDF : String) (dpi : Int) (parallel_processing : Bool)
    (language : String) : Options :=
  { _crops := []
    _inputPDF := inputPDF
    _dpi := dpi
    _parallel_processing := parallel_processing
    _language := language
    _start := some (-1)
    _end := some (-1)
    _page := none }

/-- The method `Options::addCrop`: `_crops.push_back(crop)`. -/
def Options.addCrop (o : Options) (crop : Crop) : Options :=
  { o with _crops := o._crops ++ [crop] }

/-! ## Collaborators of `main` that are not in these two files -/

/-- Modelled from the spec: Commandline.hxx is missing. The spec (section 9) names three
command variants, "page-extraction vs. full-pipeline vs. JSON-output command"; the fields are
the ones `main` reads from each (`c._page`, `c._path`, `c._start`, `c._end`). -/
structure PageCommand where
  _page : Option Int
  _path : String
deriving DecidableEq, Repr

/-- Modelled from the spec: Commandline.hxx is missing; see `PageCommand`. -/
structure HumanCommand where
  _start : Option Int
  _end : Option Int
  _page : Option Int
deriving DecidableEq, Repr

/-- Modelled from the spec: Commandline.hxx is missing; see `PageCommand`. -/
structure OutputCommand where
  _start : Option Int
  _end : Option Int
  _page : Option Int
  _path : String
deriving DecidableEq, Repr

/-- Modelled from the spec: Commandline.hxx is missing. The variant `Command` with the three
alternatives `main` dispatches on by `command.type() == typeid(...)`. With exactly these three
alternatives the last `else` of `main` ("Invalid subcommand type") cannot be reached. -/
inductive Command where
  | page (c : PageCommand)
  | human (c : HumanCommand)
  | output (c : OutputCommand)
deriving DecidableEq, Repr

/-- One element of the `"crops"` array of the config file, seen through the typed reads `main`
performs on it: `get<std::string>("type")` and `get<float>("dimensions.x")` etc. A field is
`none` when that read throws (missing key or a value that does not convert). -/
structure CropNode where
  type : Option String
  x : Option CFloat
  y : Option CFloat
  w : Option CFloat
  h : Option CFloat
deriving DecidableEq, Repr

/-- The property tree `pt` filled by `read_json`, seen through the typed reads `main`
performs on it. A field is `none` when the read throws. `parallel_processing` is `none` when
`get_child_optional` finds no such child, `some none` when the child exists but
`get<bool>` throws, `some (some b)` otherwise. -/
structure ConfigTree where
  inputPDF : Option String
  dpi : Option Int
  parallel_processing : Option (Option Bool)
  language : Option String
  crops : Option (List CropNode)
deriving DecidableEq, Repr

/-- One element of a page's `"results"` in the property tree returned by `work()`, seen through
the reads of the printing loop. -/
structure CropResultNode where
  type : Option String
  value : Option String
deriving DecidableEq, Repr

/-- One element of the top-level `"results"` in the property tree returned by `work()`. -/
structure PageResultNode where
  page : Option String
  results : Option (List CropResultNode)
deriving DecidableEq, Repr

/-- The property tree returned by `PDF::work()`, seen through the reads of the printing loop;
`results` is `none` when `get_child("results")` throws. -/
structure ResultTree where
  results : Option (List PageResultNode)
deriving DecidableEq, Repr

/-- The image object returned by `get_image_representation()`. -/
structure Image where
  id : Nat
deriving DecidableEq, Repr

/-- The page object returned by `PDF::get_page`; its only use in `main` is the call
`page.get_image_representation()`. -/
structure Page where
  get_image_representation : Except String Image

/-- Modelled from the spec: PDF.hxx is missing. A constructed `PDF` object, given by what its
three methods used in `main` answer. The spec (4.1) gives `pageCount() -> int`, and
`renderPage(index, dpi)` either yields a raster or fails; `work()` yields the result tree or
fails. -/
structure PDF where
  page_count : Int
  get_page : Int → Except String Page
  work : Except String ResultTree

/-- What the surroundings of `main` answer. -/
structure Env where
  /-- The constructor `PDF::PDF(opts)`: yields the object or throws. -/
  PDF : Options → Except String PDF
  /-- The call `img.write(path)`. -/
  write : Image → String → Except String Unit
  /-- The statements `std::ofstream ofs(path, trunc); write_json(ofs, result);`: `write_json`
  throws when the stream cannot be written. -/
  write_json : String → ResultTree → Except String Unit
  /-- The contents of a `std::string` after it has been moved from (the standard leaves it
  valid but unspecified; common implementations leave it empty). -/
  movedFrom : String → String
  /-- The text `what()` of an `invalid_config_exception` built from the given message
  (exceptions.hxx is missing). -/
  invalid_config_what : String → String
  /-- The text `what()` of the Boost exception thrown by a failing read on the tree. -/
  ptree_what : ConfigTree → String

/-- The actions of `main` that are visible outside of it, in the order performed. -/
inductive Event where
  /-- One `std::cerr << ... << std::endl` statement; the text is what precedes the last
  `std::endl`. -/
  | cerr (text : String)
  /-- One `std::cout << ...` statement: the characters it writes, `std::endl` being a
  newline. When a read inside the statement throws, these are the characters written by the
  operands to its left. -/
  | cout (text : String)
  /-- The construction `PDF main_pdf(opts)`, with the value of `*opts` at that point. -/
  | PDF (opts : Options)
  /-- The call `main_pdf.get_page(index)`. -/
  | get_page (index : Int)
  /-- The call `img.write(path)`. -/
  | write (img : Image) (path : String)
  /-- The call `main_pdf.work()`, with the value of `*opts` at that point. -/
  | work (opts : Options)
  /-- The statement `std::ofstream ofs(path, std::ios_base::trunc)`. -/
  | ofstream (path : String)
  /-- The call `write_json(ofs, result)` on the stream opened on `path`. -/
  | write_json (path : String) (result : ResultTree)
deriving DecidableEq, Repr

/-- What a run of `main` amounts to: its return value and its actions. -/
structure Outcome where
  exit : Int
  trace : List Event
deriving DecidableEq, Repr

/-! ## main.cpp -/

/-- The loop of lines 50-58: for every element of `"crops"`, build a `Crop` from its five
reads and `addCrop` it. `none` when one of the reads throws. -/
def addCrops (opts : Options) : List CropNode → Option Options
  | [] => some opts
  | crop :: rest =>
    match crop.type, crop.x, crop.y, crop.w, crop.h with
    | some t, some x, some y, some w, some h =>
      addCrops (opts.addCrop { type := t, x := x, y := y, w := w, h := h }) rest
    | _, _, _, _, _ => none

/-- The third constructor argument of line 47:
`pt.get_child_optional("parallel_processing") ? pt.get<bool>("parallel_processing") : false`.
`none` when `get<bool>` throws. -/
def parallelArg (pt : ConfigTree) : Option Bool :=
  match pt.parallel_processing with
  | none => some false
  | some b => b

/-- The block of lines 42-58 without its `catch`: `make_shared<Options>(...)` from the four
reads, then the crop loop. `none` when any read throws. -/
def fillOptions (pt : ConfigTree) : Option Options :=
  match pt.inputPDF, pt.dpi, parallelArg pt, pt.language with
  | some inputPDF, some dpi, some par, some language =>
    match pt.crops with
    | some nodes => addCrops (Options.construct inputPDF dpi par language) nodes
    | none => none
  | _, _, _, _ => none

/-- The predicate handed to `std::unique` (lines 70-72): `a.type == b.type`. -/
def sameType (a b : Crop) : Bool :=
  decide (a.type = b.type)

/-- The implicit move assignment of `Crop`, seen from the source object: the string member
is moved from, the four floats are copied. -/
def movedCrop (env : Env) (c : Crop) : Crop :=
  { c with type := env.movedFrom c.type }

/-- The first step of `std::unique`, `std::adjacent_find`: the least index `i` with
`pred(v[i], v[i+1])`, counted from `base`; `none` when there is none (the iterator `last`). -/
def adjacent_find (base : Nat) : List Crop → Option Nat
  | a :: b :: rest =>
    if sameType a b then some base else adjacent_find (base + 1) (b :: rest)
  | _ => none

/-- The copy loop of `std::unique`, run in place on the vector `v`:
`while (++first != last) if (!pred(*dest, *first)) *++dest = std::move(*first);`
followed by `return ++dest`. Here `first` is the value after the increment and `n` is the
number of iterations still to run, `last - first`. The result is the vector and the index of
the returned iterator. -/
def uniqueLoop (env : Env) (v : List Crop) (dest first : Nat) : Nat → List Crop × Nat
  | 0 => (v, dest + 1)
  | n + 1 =>
    match v[dest]?, v[first]? with
    | some d, some f =>
      if sameType d f then uniqueLoop env v dest (first + 1) n
      else uniqueLoop env ((v.set (dest + 1) f).set first (movedCrop env f)) (dest + 1) (first + 1) n
    | _, _ => (v, dest + 1)

/-- The call `std::unique(opts->_crops.begin(), opts->_crops.end(), pred)` of lines 68-73:
skip to the first adjacent pair with equal types; if there is none, return `end()` and leave
the vector as it is; otherwise run the copy loop from there. The result is the vector after
the call and the index of the returned iterator `it`. -/
def unique (env : Env) (v : List Crop) : List Crop × Nat :=
  match adjacent_find 0 v with
  | none => (v, v.length)
  | some i => uniqueLoop env v i (i + 2) (v.length - (i + 2))

/-- The report of lines 76-79: the heading, then one line per element of `[it, end())`. -/
def duplicateReport (v : List Crop) (it : Nat) : List Event :=
  Event.cerr "ERROR: duplicate crop types:" ::
    (v.drop it).map (fun crop => Event.cerr ("\t" ++ crop.type))

/-- The branch of lines 86-96, `PageCommand`. The result is the trace and whether the branch
ran to its end or threw. -/
def pageBranch (env : Env) (opts : Options) (c : PageCommand) : List Event × Except String Unit :=
  match env.PDF opts with
  | .error e => ([Event.PDF opts], .error e)
  | .ok main_pdf =>
    if c._page.isSome && decide (c._page.getD 0 ≥ main_pdf.page_count) then
      ([Event.PDF opts], .error "page cannot be bigger than the document\x27s page count")
    else
      let index : Int := if c._page.isSome then c._page.getD 0 else 0
      match main_pdf.get_page index with
      | .error e => ([Event.PDF opts, Event.get_page index], .error e)
      | .ok page =>
        match page.get_image_representation with
        | .error e => ([Event.PDF opts, Event.get_page index], .error e)
        | .ok img =>
          match env.write img c._path with
          | .error e => ([Event.PDF opts, Event.get_page index, Event.write img c._path], .error e)
          | .ok _ => ([Event.PDF opts, Event.get_page index, Event.write img c._path], .ok ())

/-- The inner loop of lines 120-124 over one page's `"results"`: two `std::cout` statements
per element,
`std::cout << "Type: " << std::endl << get("type") << std::endl << std::endl;` and
`std::cout << "Result: " << std::endl << get("value") << std::endl;`.
The operands of a `<<` chain are evaluated from left to right, so when the read throws, the
text to its left has been written. -/
def printCrops : List CropResultNode → List Event × Except String Unit
  | [] => ([], .ok ())
  | r :: rest =>
    match r.type with
    | none => ([Event.cout "Type: \n"], .error "No such node (type)")
    | some t =>
      match r.value with
      | none =>
        ([Event.cout ("Type: \n" ++ t ++ "\n\n"), Event.cout "Result: \n"],
          .error "No such node (value)")
      | some val =>
        let (tr, res) := printCrops rest
        (Event.cout ("Type: \n" ++ t ++ "\n\n") :: Event.cout ("Result: \n" ++ val ++ "\n") :: tr,
          res)

/-- The outer loop of lines 118-125 over the top-level `"results"`: per element the statement
`std::cout << "Page " << get("page") << ":" << std::endl;`, which has written `"Page "` when
the read throws, then `get_child("results")` and the inner loop. -/
def printPages : List PageResultNode → List Event × Except String Unit
  | [] => ([], .ok ())
  | p :: rest =>
    match p.page with
    | none => ([Event.cout "Page "], .error "No such node (page)")
    | some page =>
      match p.results with
      | none => ([Event.cout ("Page " ++ page ++ ":\n")], .error "No such node (results)")
      | some rs =>
        match printCrops rs with
        | (tr, .error e) => (Event.cout ("Page " ++ page ++ ":\n") :: tr, .error e)
        | (tr, .ok _) =>
          let (tr2, res) := printPages rest
          (Event.cout ("Page " ++ page ++ ":\n") :: (tr ++ tr2), res)

/-- The `HumanCommand` output of lines 116-126. -/
def printHuman (result : ResultTree) : List Event × Except String Unit :=
  match result.results with
  | none => ([], .error "No such node (results)")
  | some pages => printPages pages

/-- The `OutputCommand` output of lines 129-135. -/
def writeOutput (env : Env) (subcomm : OutputCommand) (result : ResultTree) :
    List Event × Except String Unit :=
  match env.write_json subcomm._path result with
  | .error e =>
    ([Event.ofstream subcomm._path, Event.write_json subcomm._path result],
      .error ("could not write to " ++ subcomm._path ++ ": " ++ e))
  | .ok _ => ([Event.ofstream subcomm._path, Event.write_json subcomm._path result], .ok ())

/-- The assignments of lines 99-110: for `HumanCommand` and for `OutputCommand`, the three
page fields of `*opts` are overwritten by the ones of the command. -/
def withBounds (opts : Options) : Command → Options
  | .human c => { opts with _start := c._start, _end := c._end, _page := c._page }
  | .output c => { opts with _start := c._start, _end := c._end, _page := c._page }
  | .page _ => opts

/-- The `else` branch of lines 97-140: copy the bounds, construct the `PDF`, call `work()`,
then print or write the result, or throw when the command is neither of the two. -/
def workBranch (env : Env) (opts0 : Options) (command : Command) :
    List Event × Except String Unit :=
  let opts := withBounds opts0 command
  match env.PDF opts with
  | .error e => ([Event.PDF opts], .error e)
  | .ok main_pdf =>
    match main_pdf.work with
    | .error e => ([Event.PDF opts, Event.work opts], .error e)
    | .ok result =>
      let (tr, res) :=
        match command with
        | .human _ => printHuman result
        | .output subcomm => writeOutput env subcomm result
        | .page _ =>
          ([], .error
            "Invalid subcommand type. This should never happen, please file a bug report")
      (Event.PDF opts :: Event.work opts :: tr, res)

/-- The subcommand handling of lines 85-140: the `PageCommand` branch, or the `else` branch
for the two other commands. -/
def dispatch (env : Env) (opts : Options) : Command → List Event × Except String Unit
  | .page c => pageBranch env opts c
  | .human c => workBranch env opts (.human c)
  | .output c => workBranch env opts (.output c)

/-- Lines 31-140, the part of the outer `try` block that follows the command-line parsing:
read the config, fill `Options`, check the crop types, dispatch on the command. The result
is the trace and either the value of a `return` statement inside the block (`some 1`, the
duplicate report), the end of the block (`none`), or the exception that left it. -/
def tryBlock (env : Env) (command : Command) (read_json : Except String ConfigTree) :
    List Event × Except String (Option Int) :=
  match read_json with
  | .error e =>
    ([], .error (env.invalid_config_what ("\tthe config file is malformed\n\tException: " ++ e)))
  | .ok pt =>
    match fillOptions pt with
    | none =>
      ([], .error (env.invalid_config_what
        ("\tthe json format does not meet the expectations\n\tException: " ++ env.ptree_what pt)))
    | some loaded =>
      let (crops, it) := unique env loaded._crops
      let opts : Options := { loaded with _crops := crops }
      if it ≠ crops.length then
        (duplicateReport crops it, .ok (some 1))
      else
        let (tr, res) := dispatch env opts command
        (tr, res.map (fun _ => none))

/-- How a run of the outer `try` block ends (lines 141-145): a `return` inside the block gives
its value, the end of the block leads to `return 0`, and an exception is caught, reported on
`std::cerr` and turned into `return 1`. -/
def returnOf : List Event × Except String (Option Int) → Outcome
  | (tr, .ok (some code)) => { exit := code, trace := tr }
  | (tr, .ok none) => { exit := 0, trace := tr }
  | (tr, .error e) => { exit := 1, trace := tr ++ [Event.cerr ("Error: " ++ e)] }

/-- The function `main`. The call `Magick::InitializeMagick(NULL)` of line 15 has no effect
that `main` observes and is left out. `parse_options` is the outcome of
`parse_options(argc, argv)` (an exception, no command, or a command) and `read_json` the
outcome of reading the config file the command names (an exception or the tree). -/
def main (env : Env) (parse_options : Except String (Option Command))
    (read_json : Except String ConfigTree) : Outcome :=
  match parse_options with
  | .error e => { exit := 1, trace := [Event.cerr e] }
  | .ok none => { exit := 0, trace := [] }
  | .ok (some command) => returnOf (tryBlock env command read_json)

/-! ## Concrete surroundings and inputs used to run the model -/

/-- A document of `pages` pages that opens whatever the options, renders exactly the indices in
`[0, pages)`, and whose `work()` returns an empty result list. -/
def sampleEnv (pages : Int) : Env :=
  { PDF := fun _ => .ok
      { page_count := pages
        get_page := fun i =>
          if 0 ≤ i ∧ i < pages then .ok { get_image_representation := .ok { id := i.toNat } }
          else .error "RenderError"
        work := .ok { results := some [] } }
    write := fun _ _ => .ok ()
    write_json := fun _ _ => .ok ()
    movedFrom := fun _ => ""
    invalid_config_what := fun m => m
    ptree_what := fun _ => "No such node" }

/-- What the `PageCommand` branch uses of the outcome of the `PDF` constructor: the exception
it threw, or what `page_count()` and `get_page` of the object answer. The answer of `work()`
is not part of it. -/
def pageView (r : Except String PDF) : Except String (Int × (Int → Except String Page)) :=
  match r with
  | .error e => .error e
  | .ok pdf => .ok (pdf.page_count, pdf.get_page)

/-- The same surroundings as `sampleEnv`, except that `work()` depends on the crops: it throws
when there are none. -/
def cropWorkEnv (pages : Int) : Env :=
  { sampleEnv pages with
    PDF := fun o => .ok
      { page_count := pages
        get_page := fun i =>
          if 0 ≤ i ∧ i < pages then .ok { get_image_representation := .ok { id := i.toNat } }
          else .error "RenderError"
        work := if o._crops = [] then .error "no crops" else .ok { results := some [] } } }

/-- The same surroundings as `sampleEnv`, except that `work()` throws. -/
def failingWorkEnv (pages : Int) : Env :=
  { sampleEnv pages with
    PDF := fun _ => .ok
      { page_count := pages
        get_page := fun _ => .error "RenderError"
        work := .error "OcrError" } }

/-- The node of the `"crops"` array whose five reads yield the fields of `c`. -/
def Crop.toNode (c : Crop) : CropNode :=
  { type := some c.type, x := some c.x, y := some c.y, w := some c.w, h := some c.h }

/-- A config file all of whose reads succeed. -/
def configOf (inputPDF : String) (dpi : Int) (parallel_processing : Option Bool)
    (language : String) (declared : List Crop) : ConfigTree :=
  { inputPDF := some inputPDF
    dpi := some dpi
    parallel_processing := parallel_processing.map some
    language := some language
    crops := some (declared.map Crop.toNode) }

/-- A crop of the given type covering the whole page (the floats 0.0 and 1.0). -/
def fullPage (type : String) : Crop :=
  { type := type, x := { bits := 0 }, y := { bits := 0 },
    w := { bits := 1065353216 }, h := { bits := 1065353216 } }

/-- The options `main` builds from `configOf inputPDF dpi none "eng" crops` for a command
without page bounds. -/
def sampleOptions (inputPDF : String) (dpi : Int) (crops : List Crop) : Options :=
  { _crops := crops
    _inputPDF := inputPDF
    _dpi := dpi
    _parallel_processing := false
    _language := "eng"
    _start := none
    _end := none
    _page := none }

/-- The options `main` builds from `configOf "in.pdf" 300 none "eng" crops` for the
single-page command, which leaves the page fields as the constructor set them. -/
def samplePageOptions (crops : List Crop) : Options :=
  { _crops := crops
    _inputPDF := "in.pdf"
    _dpi := 300
    _parallel_processing := false
    _language := "eng"
    _start := some (-1)
    _end := some (-1)
    _page := none }

/-- The full-pipeline command without page bounds. -/
def humanAll : Command :=
  .human { _start := none, _end := none, _page := none }

/-- The single-page command for page 1, writing to `page.png`. -/
def pageOne : PageCommand :=
  { _page := some 1, _path := "page.png" }

/-- The JSON-output command without page bounds, writing to `out.json`. -/
def outputAll : OutputCommand :=
  { _start := none, _end := none, _page := none, _path := "out.json" }

/-! ## The duplicate check -/

theorem uniqueLoop_length (env : Env) (n : Nat) :
    ∀ (v : List Crop) (d f : Nat), (uniqueLoop env v d f n).1.length = v.length := by
  induction n with
  | zero => intro v d f; simp [uniqueLoop]
  | succ n ih =>
    intro v d f
    unfold uniqueLoop
    split
    · split
      · exact ih v d (f + 1)
      · rw [ih]; simp
    · rfl

theorem uniqueLoop_lt (env : Env) (n : Nat) :
    ∀ (v : List Crop) (d f : Nat), d + 1 < f → (uniqueLoop env v d f n).2 < f + n := by
  induction n with
  | zero => intro v d f h; simpa [uniqueLoop] using h
  | succ n ih =>
    intro v d f h
    unfold uniqueLoop
    split
    · rename_i dc fc _ _
      split
      · have := ih v d (f + 1) (by omega); omega
      · have := ih ((v.set (d + 1) fc).set f (movedCrop env fc)) (d + 1) (f + 1) (by omega)
        omega
    · show d + 1 < f + (n + 1); omega

theorem adjacent_find_bound :
    ∀ (v : List Crop) (base i : Nat), adjacent_find base v = some i → i + 2 ≤ base + v.length := by
  intro v
  induction v with
  | nil => intro base i h; simp [adjacent_find] at h
  | cons a rest ih =>
    intro base i h
    cases rest with
    | nil => simp [adjacent_find] at h
    | cons b rest =>
      unfold adjacent_find at h
      split at h
      · simp at h; subst h; simp
      · have := ih (base + 1) i h
        simp at this ⊢; omega

/-- When no two neighbours have the same type, `std::unique` returns `end()` and leaves the
vector as it is. -/
theorem unique_of_none (env : Env) (v : List Crop) (h : adjacent_find 0 v = none) :
    unique env v = (v, v.length) := by
  simp [unique, h]

/-- When two neighbours have the same type, the iterator `std::unique` returns is not
`end()`. -/
theorem unique_of_some (env : Env) (v : List Crop) (i : Nat) (h : adjacent_find 0 v = some i) :
    (unique env v).2 ≠ (unique env v).1.length := by
  have hb := adjacent_find_bound v 0 i h
  have hlt := uniqueLoop_lt env (v.length - (i + 2)) v i (i + 2) (by omega)
  have hlen := uniqueLoop_length env (v.length - (i + 2)) v i (i + 2)
  simp only [unique, h]
  omega

/-- Pairwise distinct types leave no two neighbours with the same type. -/
theorem adjacent_find_of_nodup :
    ∀ (v : List Crop) (base : Nat), (v.map Crop.type).Nodup → adjacent_find base v = none := by
  intro v
  induction v with
  | nil => intro base _; rfl
  | cons a rest ih =>
    intro base h
    cases rest with
    | nil => rfl
    | cons b rest =>
      have hab : a.type ≠ b.type := by
        intro hab
        simp [hab] at h
      have hrest : ((b :: rest).map Crop.type).Nodup := (List.nodup_cons.mp h).2
      unfold adjacent_find
      simp [sameType, hab, ih (base + 1) hrest]

/-! ## Filling `Options` from the config file -/

theorem addCrops_fields :
    ∀ (nodes : List CropNode) (o o2 : Options), addCrops o nodes = some o2 →
      o2._inputPDF = o._inputPDF ∧ o2._dpi = o._dpi ∧
      o2._parallel_processing = o._parallel_processing ∧ o2._language = o._language ∧
      o2._start = o._start ∧ o2._end = o._end ∧ o2._page = o._page := by
  intro nodes
  induction nodes with
  | nil => intro o o2 h; simp [addCrops] at h; subst h; simp
  | cons n rest ih =>
    intro o o2 h
    unfold addCrops at h
    split at h
    · simpa [Options.addCrop] using ih _ _ h
    · simp at h

theorem addCrops_toNode :
    ∀ (declared : List Crop) (o : Options),
      addCrops o (declared.map Crop.toNode) = some (declared.foldl Options.addCrop o) := by
  intro declared
  induction declared with
  | nil => intro o; rfl
  | cons c rest ih =>
    intro o
    simp only [List.map_cons, List.foldl_cons]
    unfold addCrops
    simp only [Crop.toNode]
    exact ih (o.addCrop c)

theorem foldl_addCrop :
    ∀ (declared : List Crop) (o : Options),
      declared.foldl Options.addCrop o = { o with _crops := o._crops ++ declared } := by
  intro declared
  induction declared with
  | nil => intro o; simp
  | cons c rest ih =>
    intro o
    simp [List.foldl_cons, ih, Options.addCrop]

theorem fillOptions_fields (pt : ConfigTree) (loaded : Options)
    (h : fillOptions pt = some loaded) :
    pt.inputPDF = some loaded._inputPDF ∧ pt.dpi = some loaded._dpi ∧
    parallelArg pt = some loaded._parallel_processing ∧ pt.language = some loaded._language ∧
    loaded._start = some (-1) ∧ loaded._end = some (-1) ∧ loaded._page = none := by
  unfold fillOptions at h
  split at h
  · rename_i inputPDF dpi par language h1 h2 h3 h4
    split at h
    · have hf := addCrops_fields _ _ _ h
      simp only [Options.construct] at hf
      obtain ⟨a, b, c, d, e, f, g⟩ := hf
      simp [h1, h2, h3, h4, a, b, c, d, e, f, g]
    · simp at h
  · simp at h

theorem fillOptions_configOf (inputPDF : String) (dpi : Int) (pp : Option Bool)
    (language : String) (declared : List Crop) :
    fillOptions (configOf inputPDF dpi pp language declared) =
      some (declared.foldl Options.addCrop
        (Options.construct inputPDF dpi (pp.getD false) language)) := by
  cases pp <;> simp [fillOptions, configOf, parallelArg, addCrops_toNode]

/-! ## The structure of a run -/

theorem returnOf_ok (tr : List Event) (u : Unit) :
    returnOf (tr, (Except.ok u : Except String Unit).map (fun _ => none)) =
      { exit := 0, trace := tr } := rfl

theorem returnOf_error (tr : List Event) (e : String) :
    returnOf (tr, (Except.error e : Except String Unit).map (fun _ => none)) =
      { exit := 1, trace := tr ++ [Event.cerr ("Error: " ++ e)] } := rfl

/-- A run whose config is readable and whose crops pass the check is the subcommand handling
on the loaded options. -/
theorem main_accept (env : Env) (command : Command) (pt : ConfigTree) (loaded : Options)
    (hl : fillOptions pt = some loaded) (hu : adjacent_find 0 loaded._crops = none) :
    main env (.ok (some command)) (.ok pt) =
      returnOf ((dispatch env loaded command).1,
        (dispatch env loaded command).2.map (fun _ => none)) := by
  simp [main, tryBlock, hl, unique_of_none env _ hu]

/-- A run whose config is readable and whose crops have two neighbours of the same type ends
with the duplicate report and status 1. -/
theorem main_reject (env : Env) (command : Command) (pt : ConfigTree) (loaded : Options)
    (i : Nat) (hl : fillOptions pt = some loaded)
    (hu : adjacent_find 0 loaded._crops = some i) :
    main env (.ok (some command)) (.ok pt) =
      { exit := 1
        trace := duplicateReport (unique env loaded._crops).1 (unique env loaded._crops).2 } := by
  have hne := unique_of_some env _ i hu
  rcases hun : unique env loaded._crops with ⟨crops, it⟩
  rw [hun] at hne
  simp only [ne_eq] at hne
  simp only [main, tryBlock, hl, hun, ne_eq, hne, not_false_eq_true, ↓reduceIte, returnOf]

/-- A run with a command either ends with status 1 having only written to `std::cerr`, or its
config is readable, its crops pass the check, and it is the subcommand handling. -/
theorem main_cases (env : Env) (command : Command) (read_json : Except String ConfigTree) :
    ((main env (.ok (some command)) read_json).exit = 1 ∧
      ∀ ev ∈ (main env (.ok (some command)) read_json).trace, ∃ t, ev = Event.cerr t) ∨
    ∃ pt loaded, read_json = .ok pt ∧ fillOptions pt = some loaded ∧
      adjacent_find 0 loaded._crops = none ∧
      main env (.ok (some command)) read_json =
        returnOf ((dispatch env loaded command).1,
          (dispatch env loaded command).2.map (fun _ => none)) := by
  cases read_json with
  | error e => left; simp [main, tryBlock, returnOf]
  | ok pt =>
    cases hl : fillOptions pt with
    | none => left; simp [main, tryBlock, returnOf, hl]
    | some loaded =>
      cases hu : adjacent_find 0 loaded._crops with
      | none => right; exact ⟨pt, loaded, rfl, hl, hu, main_accept env command pt loaded hl hu⟩
      | some i =>
        left
        have hne := unique_of_some env _ i hu
        rcases hun : unique env loaded._crops with ⟨crops, it⟩
        rw [hun] at hne
        simp only [main, tryBlock, hl, hun]
        simp only [ne_eq] at hne
        simp only [ne_eq, hne, not_false_eq_true, ↓reduceIte, returnOf, true_and]
        intro ev hev
        simp only [duplicateReport, List.mem_cons, List.mem_map] at hev
        rcases hev with h | ⟨c, _, h⟩
        · exact ⟨_, h⟩
        · exact ⟨_, h.symm⟩

theorem returnOf_trace_mem (tr : List Event) (res : Except String Unit) (ev : Event)
    (h : ev ∈ (returnOf (tr, res.map (fun _ => none))).trace) :
    ev ∈ tr ∨ ∃ t, ev = Event.cerr t := by
  cases res with
  | ok u => rw [returnOf_ok] at h; exact Or.inl h
  | error e =>
    rw [returnOf_error] at h
    simp only [List.mem_append, List.mem_singleton] at h
    rcases h with h | h
    · exact Or.inl h
    · exact Or.inr ⟨_, h⟩

theorem returnOf_trace_head (tr rest : List Event) (res : Except String Unit) (ev : Event)
    (h : tr = ev :: rest) :
    ∃ rest2, (returnOf (tr, res.map (fun _ => none))).trace = ev :: rest2 := by
  cases res with
  | ok u => exact ⟨rest, by rw [returnOf_ok, h]⟩
  | error e => exact ⟨rest ++ [Event.cerr ("Error: " ++ e)], by rw [returnOf_error, h]; rfl⟩

/-! ## The two branches of the subcommand handling -/

theorem pageBranch_events (env : Env) (o : Options) (c : PageCommand) :
    ∀ ev ∈ (pageBranch env o c).1,
      ev = Event.PDF o ∨ (∃ i, ev = Event.get_page i) ∨ ∃ img, ev = Event.write img c._path := by
  intro ev hev
  unfold pageBranch at hev
  split at hev
  · simp at hev; exact Or.inl hev
  · split at hev
    · simp at hev; exact Or.inl hev
    · simp only at hev
      split at hev
      · simp at hev; rcases hev with h | h
        · exact Or.inl h
        · exact Or.inr (Or.inl ⟨_, h⟩)
      · split at hev
        · simp at hev; rcases hev with h | h
          · exact Or.inl h
          · exact Or.inr (Or.inl ⟨_, h⟩)
        · split at hev <;>
          · simp at hev; rcases hev with h | h | h
            · exact Or.inl h
            · exact Or.inr (Or.inl ⟨_, h⟩)
            · exact Or.inr (Or.inr ⟨_, h⟩)

theorem pageBranch_guard (env : Env) (o : Options) (c : PageCommand) (p : Int)
    (hp : c._page = some p) (hn : ∀ pdf, env.PDF o = .ok pdf → pdf.page_count ≤ p) :
    (pageBranch env o c).1 = [Event.PDF o] ∧ ∃ e, (pageBranch env o c).2 = .error e := by
  unfold pageBranch
  cases hP : env.PDF o with
  | error e => exact ⟨rfl, e, rfl⟩
  | ok pdf =>
    have := hn pdf hP
    simp [hp, this]

theorem pageBranch_congr (env : Env) (o1 o2 : Options) (c : PageCommand)
    (h : pageView (env.PDF o1) = pageView (env.PDF o2)) :
    ∃ rest, (pageBranch env o1 c).1 = Event.PDF o1 :: rest ∧
      (pageBranch env o2 c).1 = Event.PDF o2 :: rest ∧
      (pageBranch env o1 c).2 = (pageBranch env o2 c).2 := by
  unfold pageBranch
  cases h1 : env.PDF o1 with
  | error e =>
    cases h2 : env.PDF o2 with
    | error e2 =>
      rw [h1, h2] at h
      simp only [pageView, Except.error.injEq] at h
      subst h
      exact ⟨[], rfl, rfl, rfl⟩
    | ok pdf2 => rw [h1, h2] at h; simp [pageView] at h
  | ok pdf =>
    cases h2 : env.PDF o2 with
    | error e2 => rw [h1, h2] at h; simp [pageView] at h
    | ok pdf2 =>
    rw [h1, h2] at h
    simp only [pageView, Except.ok.injEq, Prod.mk.injEq] at h
    obtain ⟨hpc, hgp⟩ := h
    simp only
    rw [← hpc, ← hgp]
    split
    · exact ⟨[], rfl, rfl, rfl⟩
    · split
      · exact ⟨_, rfl, rfl, rfl⟩
      · split
        · exact ⟨_, rfl, rfl, rfl⟩
        · split <;> exact ⟨_, rfl, rfl, rfl⟩

theorem printCrops_events :
    ∀ (rs : List CropResultNode), ∀ ev ∈ (printCrops rs).1, ∃ t, ev = Event.cout t := by
  intro rs
  induction rs with
  | nil => intro ev hev; simp [printCrops] at hev
  | cons r rest ih =>
    intro ev hev
    unfold printCrops at hev
    split at hev
    · simp at hev; exact ⟨_, hev⟩
    · split at hev
      · simp at hev
        rcases hev with h | h
        · exact ⟨_, h⟩
        · exact ⟨_, h⟩
      · simp only [List.mem_cons] at hev
        rcases hev with h | h | h
        · exact ⟨_, h⟩
        · exact ⟨_, h⟩
        · exact ih ev h

theorem printPages_events :
    ∀ (ps : List PageResultNode), ∀ ev ∈ (printPages ps).1, ∃ t, ev = Event.cout t := by
  intro ps
  induction ps with
  | nil => intro ev hev; simp [printPages] at hev
  | cons p rest ih =>
    intro ev hev
    unfold printPages at hev
    split at hev
    · simp at hev; exact ⟨_, hev⟩
    · split at hev
      · simp at hev; exact ⟨_, hev⟩
      · split at hev
        · rename_i tr e hpc
          simp only [List.mem_cons] at hev
          rcases hev with h | h
          · exact ⟨_, h⟩
          · exact printCrops_events _ ev (by rw [hpc]; exact h)
        · rename_i tr u hpc
          simp only [List.mem_cons, List.mem_append] at hev
          rcases hev with h | h | h
          · exact ⟨_, h⟩
          · exact printCrops_events _ ev (by rw [hpc]; exact h)
          · exact ih ev h

theorem printHuman_events (result : ResultTree) :
    ∀ ev ∈ (printHuman result).1, ∃ t, ev = Event.cout t := by
  intro ev hev
  unfold printHuman at hev
  split at hev
  · simp at hev
  · exact printPages_events _ ev hev

theorem writeOutput_events (env : Env) (c : OutputCommand) (result : ResultTree) :
    (writeOutput env c result).1 =
      [Event.ofstream c._path, Event.write_json c._path result] := by
  unfold writeOutput
  split <;> rfl

theorem workBranch_head (env : Env) (o : Options) (command : Command) :
    ∃ rest, (workBranch env o command).1 = Event.PDF (withBounds o command) :: rest := by
  unfold workBranch
  simp only
  split
  · exact ⟨_, rfl⟩
  · split
    · exact ⟨_, rfl⟩
    · exact ⟨_, rfl⟩

/-- In the branch of the two full-pipeline commands, `work()` only ever runs on the loaded
options with the bounds of the command, and on the very options the `PDF` was built from. -/
theorem workBranch_work_mem (env : Env) (o o2 : Options) (command : Command)
    (hc : ∀ c, command ≠ .page c) (h : Event.work o2 ∈ (workBranch env o command).1) :
    o2 = withBounds o command ∧ Event.PDF o2 ∈ (workBranch env o command).1 := by
  unfold workBranch at h ⊢
  simp only at h ⊢
  split at h
  · simp at h
  · split at h
    · simp at h; subst h; simp
    · rename_i result _
      simp only [List.mem_cons] at h
      rcases h with h | h | h
      · simp at h
      · simp at h; subst h; simp
      · exfalso
        cases command with
        | page c => exact hc c rfl
        | human c =>
          obtain ⟨t, ht⟩ := printHuman_events result _ h
          simp at ht
        | output c =>
          simp only [writeOutput_events] at h
          simp at h

theorem workBranch_output_fail (env : Env) (o : Options) (c : OutputCommand)
    (hf : ∀ pdf, env.PDF (withBounds o (.output c)) = .ok pdf → ∃ e, pdf.work = .error e) :
    (∃ e, (workBranch env o (.output c)).2 = .error e) ∧
    ∀ ev ∈ (workBranch env o (.output c)).1,
      ev = Event.PDF (withBounds o (.output c)) ∨ ev = Event.work (withBounds o (.output c)) := by
  unfold workBranch
  simp only
  cases hP : env.PDF (withBounds o (.output c)) with
  | error e => simp
  | ok pdf =>
    obtain ⟨e, he⟩ := hf pdf hP
    simp [he]

theorem workBranch_output_write (env : Env) (o : Options) (c : OutputCommand) (path : String)
    (res : ResultTree) (h : Event.write_json path res ∈ (workBranch env o (.output c)).1) :
    path = c._path ∧ Event.work (withBounds o (.output c)) ∈ (workBranch env o (.output c)).1 ∧
    ∃ pdf, env.PDF (withBounds o (.output c)) = .ok pdf ∧ pdf.work = .ok res := by
  unfold workBranch at h ⊢
  simp only at h ⊢
  cases hP : env.PDF (withBounds o (.output c)) with
  | error e => rw [hP] at h; simp at h
  | ok pdf =>
    rw [hP] at h
    simp only at h ⊢
    cases hW : pdf.work with
    | error e => rw [hW] at h; simp at h
    | ok result =>
      rw [hW] at h
      simp only [writeOutput_events, List.mem_cons] at h ⊢
      simp at h
      obtain ⟨h1, h2⟩ := h
      subst h1 h2
      simp [hW]

theorem dispatch_head (env : Env) (o : Options) (command : Command) :
    ∃ rest, (dispatch env o command).1 = Event.PDF (withBounds o command) :: rest := by
  cases command with
  | page c =>
    obtain ⟨rest, h, _, _⟩ := pageBranch_congr env o o c rfl
    exact ⟨rest, h⟩
  | human c => exact workBranch_head env o (.human c)
  | output c => exact workBranch_head env o (.output c)

theorem returnOf_trace_sub (tr : List Event) (res : Except String Unit) (ev : Event)
    (h : ev ∈ tr) : ev ∈ (returnOf (tr, res.map (fun _ => none))).trace := by
  cases res with
  | ok u => rw [returnOf_ok]; exact h
  | error e => rw [returnOf_error]; exact List.mem_append_left _ h

theorem workBranch_work_called (env : Env) (o : Options) (command : Command) (pdf : PDF)
    (h : env.PDF (withBounds o command) = .ok pdf) :
    Event.work (withBounds o command) ∈ (workBranch env o command).1 := by
  unfold workBranch
  simp only [h]
  split <;> simp

/-! ## The claims -/

/-- C1, at an input where the code departs from it: the declared crops have the types
body, title, body, so two crops share a type without being neighbours. The check does not
reject: `main` constructs the `PDF`, calls `work()` on options that carry all three crops,
and returns 0. -/
theorem duplicate_types_apart_reach_work :
    main (sampleEnv 3) (.ok (some humanAll))
        (.ok (configOf "in.pdf" 300 none "eng"
          [fullPage "body", fullPage "title", fullPage "body"])) =
      { exit := 0
        trace :=
          [Event.PDF (sampleOptions "in.pdf" 300
              [fullPage "body", fullPage "title", fullPage "body"]),
           Event.work (sampleOptions "in.pdf" 300
              [fullPage "body", fullPage "title", fullPage "body"])] } := by
  decide

/-- C2: on the single-page path, whatever the config file, when every document the
surroundings can open has `n` pages and the requested page `p` satisfies `p >= n`, `main`
returns 1, never calls `get_page` and never writes an image. -/
theorem page_at_or_beyond_count_fails (env : Env) (c : PageCommand)
    (read_json : Except String ConfigTree) (n p : Int)
    (hn : ∀ o pdf, env.PDF o = .ok pdf → pdf.page_count = n)
    (hp : c._page = some p) (hpn : p ≥ n) :
    (main env (.ok (some (.page c))) read_json).exit = 1 ∧
    (∀ i, Event.get_page i ∉ (main env (.ok (some (.page c))) read_json).trace) ∧
    (∀ img path, Event.write img path ∉ (main env (.ok (some (.page c))) read_json).trace) := by
  rcases main_cases env (.page c) read_json with ⟨hexit, hev⟩ | ⟨pt, loaded, _, _, _, hmain⟩
  · refine ⟨hexit, ?_, ?_⟩
    · intro i hi
      obtain ⟨t, ht⟩ := hev _ hi
      simp at ht
    · intro img path hi
      obtain ⟨t, ht⟩ := hev _ hi
      simp at ht
  · have hd : dispatch env loaded (.page c) = pageBranch env loaded c := rfl
    obtain ⟨h1, e, h2⟩ := pageBranch_guard env loaded c p hp
      (fun pdf hpdf => by rw [hn loaded pdf hpdf]; exact hpn)
    rw [hmain, hd, h1, h2, returnOf_error]
    simp

/-- C2, at a concrete input: page 5 of a 3-page document. -/
theorem page_at_or_beyond_count_fails_witness :
    (main (sampleEnv 3) (.ok (some (.page { _page := some 5, _path := "page.png" })))
        (.ok (configOf "in.pdf" 300 none "eng" []))).exit = 1 ∧
    (∀ i, Event.get_page i ∉
      (main (sampleEnv 3) (.ok (some (.page { _page := some 5, _path := "page.png" })))
        (.ok (configOf "in.pdf" 300 none "eng" []))).trace) ∧
    (∀ img path, Event.write img path ∉
      (main (sampleEnv 3) (.ok (some (.page { _page := some 5, _path := "page.png" })))
        (.ok (configOf "in.pdf" 300 none "eng" []))).trace) :=
  page_at_or_beyond_count_fails (sampleEnv 3) { _page := some 5, _path := "page.png" }
    (.ok (configOf "in.pdf" 300 none "eng" [])) 3 5
    (by intro o pdf h; simp [sampleEnv] at h; subst h; rfl) rfl (by decide)

/-- C3, refuted at concrete inputs: a config file whose `"inputPDF"` is the empty string, and
one whose `"dpi"` is 0. In both runs `main` constructs the `PDF` from options carrying these
values, calls `work()` and returns 0. -/
theorem empty_inputPDF_and_zero_dpi_reach_PDF :
    main (sampleEnv 3) (.ok (some humanAll)) (.ok (configOf "" 300 none "eng" [])) =
      { exit := 0
        trace := [Event.PDF (sampleOptions "" 300 []), Event.work (sampleOptions "" 300 [])] } ∧
    main (sampleEnv 3) (.ok (some humanAll)) (.ok (configOf "in.pdf" 0 none "eng" [])) =
      { exit := 0
        trace := [Event.PDF (sampleOptions "in.pdf" 0 []),
                  Event.work (sampleOptions "in.pdf" 0 [])] } := by
  decide

/-- C3, as amended: `main` does not validate `"inputPDF"` or `"dpi"`. For every command and
every config file whose reads succeed and whose crops have no two neighbours of the same type,
the first action of `main` is the construction of the `PDF`, from options whose `_inputPDF`
and `_dpi` are exactly the values read. -/
theorem inputPDF_and_dpi_handed_over_as_read (env : Env) (command : Command) (pt : ConfigTree)
    (loaded : Options) (hl : fillOptions pt = some loaded)
    (hu : adjacent_find 0 loaded._crops = none) :
    ∃ o rest, (main env (.ok (some command)) (.ok pt)).trace = Event.PDF o :: rest ∧
      pt.inputPDF = some o._inputPDF ∧ pt.dpi = some o._dpi := by
  obtain ⟨rest, hrest⟩ := dispatch_head env loaded command
  obtain ⟨rest2, hrest2⟩ := returnOf_trace_head _ rest (dispatch env loaded command).2 _ hrest
  obtain ⟨hi, hd, _⟩ := fillOptions_fields pt loaded hl
  refine ⟨withBounds loaded command, rest2, ?_, ?_, ?_⟩
  · rw [main_accept env command pt loaded hl hu]; exact hrest2
  · cases command <;> simpa [withBounds] using hi
  · cases command <;> simpa [withBounds] using hd

/-- C3 as amended, at a concrete input: the empty input path and dpi 0. -/
theorem inputPDF_and_dpi_handed_over_as_read_witness :
    ∃ o rest, (main (sampleEnv 3) (.ok (some humanAll))
        (.ok (configOf "" 0 none "eng" []))).trace = Event.PDF o :: rest ∧
      (configOf "" 0 none "eng" []).inputPDF = some o._inputPDF ∧
      (configOf "" 0 none "eng" []).dpi = some o._dpi :=
  inputPDF_and_dpi_handed_over_as_read (sampleEnv 3) humanAll (configOf "" 0 none "eng" [])
    (Options.construct "" 0 false "eng") (by decide) (by decide)

/-- C4, refuted at a concrete input: after construction `_start` and `_end` are engaged and
hold -1. -/
theorem constructed_start_and_end_are_engaged :
    (Options.construct "in.pdf" 300 false "eng")._start = some (-1) ∧
    (Options.construct "in.pdf" 300 false "eng")._end = some (-1) ∧
    (Options.construct "in.pdf" 300 false "eng")._start ≠ none ∧
    (Options.construct "in.pdf" 300 false "eng")._end ≠ none := by
  decide

/-- C4, as amended: for every inputPDF, dpi, parallel flag and language, the constructed
`Options` has `_page` absent, and `_start` and `_end` both present with the value -1. -/
theorem constructed_page_fields (inputPDF : String) (dpi : Int) (parallel_processing : Bool)
    (language : String) :
    (Options.construct inputPDF dpi parallel_processing language)._page = none ∧
    (Options.construct inputPDF dpi parallel_processing language)._start = some (-1) ∧
    (Options.construct inputPDF dpi parallel_processing language)._end = some (-1) :=
  ⟨rfl, rfl, rfl⟩

/-- C5: for `HumanCommand` and `OutputCommand` with page fields `start`, `stop`, `page`,
whenever `work()` runs, it runs on the options the `PDF` was constructed from, whose `_start`,
`_end`, `_page` are the ones of the command (all absent when the command gives none) and whose
inputPDF, dpi, parallel flag, language and crops are those loaded from the config file. -/
theorem work_runs_on_command_bounds (env : Env) (command : Command)
    (read_json : Except String ConfigTree) (start stop page : Option Int) (o : Options)
    (hc : command = .human { _start := start, _end := stop, _page := page } ∨
      ∃ path, command = .output { _start := start, _end := stop, _page := page, _path := path })
    (hw : Event.work o ∈ (main env (.ok (some command)) read_json).trace) :
    ∃ pt loaded, read_json = .ok pt ∧ fillOptions pt = some loaded ∧
      Event.PDF o ∈ (main env (.ok (some command)) read_json).trace ∧
      o._start = start ∧ o._end = stop ∧ o._page = page ∧
      o._inputPDF = loaded._inputPDF ∧ o._dpi = loaded._dpi ∧
      o._parallel_processing = loaded._parallel_processing ∧
      o._language = loaded._language ∧ o._crops = loaded._crops := by
  rcases main_cases env command read_json with ⟨_, hev⟩ | ⟨pt, loaded, hrj, hl, _, hmain⟩
  · obtain ⟨t, ht⟩ := hev _ hw
    simp at ht
  · refine ⟨pt, loaded, hrj, hl, ?_⟩
    rw [hmain] at hw ⊢
    have hnp : ∀ c, command ≠ .page c := by
      intro c h
      rcases hc with hc | ⟨path, hc⟩ <;> simp [hc] at h
    have hd : dispatch env loaded command = workBranch env loaded command := by
      rcases hc with hc | ⟨path, hc⟩ <;> subst hc <;> rfl
    rw [hd] at hw ⊢
    rcases returnOf_trace_mem _ _ _ hw with hw2 | ⟨t, ht⟩
    · obtain ⟨ho, hpdf⟩ := workBranch_work_mem env loaded o command hnp hw2
      refine ⟨returnOf_trace_sub _ _ _ hpdf, ?_⟩
      rcases hc with hc | ⟨path, hc⟩ <;> subst hc <;> subst ho <;> simp [withBounds]
    · simp at ht

/-- C5, at a concrete input: the JSON-output command without bounds. -/
theorem work_runs_on_command_bounds_witness :
    ∃ pt loaded, (Except.ok (configOf "in.pdf" 300 none "eng" [fullPage "body"]) :
        Except String ConfigTree) = .ok pt ∧ fillOptions pt = some loaded ∧
      Event.PDF (sampleOptions "in.pdf" 300 [fullPage "body"]) ∈
        (main (sampleEnv 3)
          (.ok (some (.output outputAll)))
          (.ok (configOf "in.pdf" 300 none "eng" [fullPage "body"]))).trace ∧
      (sampleOptions "in.pdf" 300 [fullPage "body"])._start = none ∧
      (sampleOptions "in.pdf" 300 [fullPage "body"])._end = none ∧
      (sampleOptions "in.pdf" 300 [fullPage "body"])._page = none ∧
      (sampleOptions "in.pdf" 300 [fullPage "body"])._inputPDF = loaded._inputPDF ∧
      (sampleOptions "in.pdf" 300 [fullPage "body"])._dpi = loaded._dpi ∧
      (sampleOptions "in.pdf" 300 [fullPage "body"])._parallel_processing =
        loaded._parallel_processing ∧
      (sampleOptions "in.pdf" 300 [fullPage "body"])._language = loaded._language ∧
      (sampleOptions "in.pdf" 300 [fullPage "body"])._crops = loaded._crops :=
  work_runs_on_command_bounds (sampleEnv 3)
    (.output outputAll)
    (.ok (configOf "in.pdf" 300 none "eng" [fullPage "body"])) none none none
    (sampleOptions "in.pdf" 300 [fullPage "body"]) (Or.inr ⟨"out.json", rfl⟩) (by decide)

/-- C6: for the JSON-output command, whatever the config file. If every call of `work()` in
the run throws, `main` returns 1 and the run contains no opening of the output file, no
`write_json` and no output on `std::cout`. And whenever the run does contain a `write_json`,
it is on the path of the command and with the very tree a call of `work()` in this run
returned. -/
theorem failed_work_leaves_output_untouched (env : Env) (c : OutputCommand)
    (read_json : Except String ConfigTree) :
    ((∀ o pdf, Event.work o ∈ (main env (.ok (some (.output c))) read_json).trace →
        env.PDF o = .ok pdf → ∃ e, pdf.work = .error e) →
      (main env (.ok (some (.output c))) read_json).exit = 1 ∧
      ∀ ev ∈ (main env (.ok (some (.output c))) read_json).trace,
        (∀ path, ev ≠ Event.ofstream path) ∧ (∀ path res, ev ≠ Event.write_json path res) ∧
        (∀ t, ev ≠ Event.cout t)) ∧
    (∀ path res, Event.write_json path res ∈ (main env (.ok (some (.output c))) read_json).trace →
      path = c._path ∧
      ∃ o pdf, Event.work o ∈ (main env (.ok (some (.output c))) read_json).trace ∧
        env.PDF o = .ok pdf ∧ pdf.work = .ok res) := by
  rcases main_cases env (.output c) read_json with ⟨hexit, hev⟩ | ⟨pt, loaded, _, _, _, hmain⟩
  · refine ⟨fun _ => ⟨hexit, ?_⟩, ?_⟩
    · intro ev h
      obtain ⟨t, ht⟩ := hev ev h
      subst ht
      simp
    · intro path res h
      obtain ⟨t, ht⟩ := hev _ h
      simp at ht
  · have hd : dispatch env loaded (.output c) = workBranch env loaded (.output c) := rfl
    rw [hmain, hd]
    refine ⟨?_, ?_⟩
    · intro hfail
      have hf : ∀ pdf, env.PDF (withBounds loaded (.output c)) = .ok pdf →
          ∃ e, pdf.work = .error e := by
        intro pdf hpdf
        exact hfail _ pdf
          (returnOf_trace_sub _ _ _ (workBranch_work_called env loaded (.output c) pdf hpdf)) hpdf
      obtain ⟨⟨e, he⟩, hevs⟩ := workBranch_output_fail env loaded c hf
      rw [he, returnOf_error]
      refine ⟨rfl, ?_⟩
      intro ev h
      simp only [List.mem_append, List.mem_singleton] at h
      rcases h with h | h
      · rcases hevs ev h with h2 | h2 <;> subst h2 <;> simp
      · subst h; simp
    · intro path res h
      rcases returnOf_trace_mem _ _ _ h with h2 | ⟨t, ht⟩
      · obtain ⟨hpath, hwork, pdf, hpdf, hres⟩ := workBranch_output_write env loaded c path res h2
        exact ⟨hpath, _, pdf, returnOf_trace_sub _ _ _ hwork, hpdf, hres⟩
      · simp at ht

/-- C6, at a concrete input: a document whose `work()` throws. -/
theorem failed_work_leaves_output_untouched_witness :
    (main (failingWorkEnv 3)
        (.ok (some (.output outputAll)))
        (.ok (configOf "in.pdf" 300 none "eng" [fullPage "body"]))).exit = 1 ∧
    ∀ ev ∈ (main (failingWorkEnv 3)
        (.ok (some (.output outputAll)))
        (.ok (configOf "in.pdf" 300 none "eng" [fullPage "body"]))).trace,
      (∀ path, ev ≠ Event.ofstream path) ∧ (∀ path res, ev ≠ Event.write_json path res) ∧
      (∀ t, ev ≠ Event.cout t) :=
  (failed_work_leaves_output_untouched (failingWorkEnv 3) outputAll
    (.ok (configOf "in.pdf" 300 none "eng" [fullPage "body"]))).1
    (by intro o pdf _ h; simp [failingWorkEnv] at h; subst h; exact ⟨_, rfl⟩)

/-- C7, refuted at a concrete input: two config files that differ only in their crops (none,
against two crops of type body) and the same single-page command. The first run writes the
image and returns 0, the second is rejected by the duplicate check and returns 1. -/
theorem page_outcome_depends_on_crops :
    main (sampleEnv 3) (.ok (some (.page pageOne))) (.ok (configOf "in.pdf" 300 none "eng" [])) =
      { exit := 0
        trace := [Event.PDF (samplePageOptions []), Event.get_page 1,
                  Event.write { id := 1 } "page.png"] } ∧
    main (sampleEnv 3) (.ok (some (.page pageOne)))
        (.ok (configOf "in.pdf" 300 none "eng" [fullPage "body", fullPage "body"])) =
      { exit := 1
        trace := [Event.cerr "ERROR: duplicate crop types:", Event.cerr "\tbody"] } := by
  decide

/-- C7, as amended. On the single-page path `work()` is never called, whatever the config
file. For two config files that differ only in their crops, both readable and both without two
neighbouring crops of the same type, and a `PDF` constructor whose outcome, `page_count()` and
`get_page` do not depend on the crops (`work()` may), the two runs return the same status and
perform the same actions, apart from the options value handed to the `PDF` constructor. And a
readable config file whose crops have two neighbours of the same type is rejected on this path
too: the run is the duplicate report and status 1, without any `PDF` being constructed. -/
theorem page_path_same_for_accepted_crops (env : Env) (c : PageCommand) :
    (∀ read_json o, Event.work o ∉ (main env (.ok (some (.page c))) read_json).trace) ∧
    (∀ pt1 pt2 o1 o2, pt2 = { pt1 with crops := pt2.crops } →
      fillOptions pt1 = some o1 → fillOptions pt2 = some o2 →
      adjacent_find 0 o1._crops = none → adjacent_find 0 o2._crops = none →
      (∀ o crops, pageView (env.PDF { o with _crops := crops }) = pageView (env.PDF o)) →
      (main env (.ok (some (.page c))) (.ok pt1)).exit =
        (main env (.ok (some (.page c))) (.ok pt2)).exit ∧
      ∃ rest, (main env (.ok (some (.page c))) (.ok pt1)).trace = Event.PDF o1 :: rest ∧
        (main env (.ok (some (.page c))) (.ok pt2)).trace = Event.PDF o2 :: rest) ∧
    (∀ pt loaded i, fillOptions pt = some loaded → adjacent_find 0 loaded._crops = some i →
      (main env (.ok (some (.page c))) (.ok pt)).exit = 1 ∧
      (main env (.ok (some (.page c))) (.ok pt)).trace =
        duplicateReport (unique env loaded._crops).1 (unique env loaded._crops).2 ∧
      ∀ ev ∈ (main env (.ok (some (.page c))) (.ok pt)).trace, ∃ t, ev = Event.cerr t) := by
  refine ⟨?_, ?_, ?_⟩
  · intro read_json o hw
    rcases main_cases env (.page c) read_json with ⟨_, hev⟩ | ⟨pt, loaded, _, _, _, hmain⟩
    · obtain ⟨t, ht⟩ := hev _ hw
      simp at ht
    · rw [hmain] at hw
      rcases returnOf_trace_mem _ _ _ hw with h | ⟨t, ht⟩
      · have hd : dispatch env loaded (.page c) = pageBranch env loaded c := rfl
        rw [hd] at h
        rcases pageBranch_events env loaded c _ h with h2 | ⟨i, h2⟩ | ⟨img, h2⟩ <;> simp at h2
      · simp at ht
  · intro pt1 pt2 o1 o2 hcfg h1 h2 hu1 hu2 hpdf
    obtain ⟨a1, b1, c1, d1, e1, f1, g1⟩ := fillOptions_fields pt1 o1 h1
    obtain ⟨a2, b2, c2, d2, e2, f2, g2⟩ := fillOptions_fields pt2 o2 h2
    have hpar : parallelArg pt2 = parallelArg pt1 := by rw [hcfg]; rfl
    have hi : pt2.inputPDF = pt1.inputPDF := by rw [hcfg]
    have hdpi : pt2.dpi = pt1.dpi := by rw [hcfg]
    have hlang : pt2.language = pt1.language := by rw [hcfg]
    have k1 : o2._inputPDF = o1._inputPDF := by rw [a1, a2] at hi; exact Option.some.inj hi
    have k2 : o2._dpi = o1._dpi := by rw [b1, b2] at hdpi; exact Option.some.inj hdpi
    have k3 : o2._parallel_processing = o1._parallel_processing := by
      rw [c1, c2] at hpar; exact Option.some.inj hpar
    have k4 : o2._language = o1._language := by rw [d1, d2] at hlang; exact Option.some.inj hlang
    have k5 : o2._start = o1._start := by rw [e1, e2]
    have k6 : o2._end = o1._end := by rw [f1, f2]
    have k7 : o2._page = o1._page := by rw [g1, g2]
    have ho : o2 = { o1 with _crops := o2._crops } := by
      clear hcfg h1 h2 hu1 hu2 hpdf a1 a2 b1 b2 c1 c2 d1 d2 e1 e2 f1 f2 g1 g2 hpar hi hdpi hlang
      cases o1; cases o2
      simp only at k1 k2 k3 k4 k5 k6 k7
      simp [k1, k2, k3, k4, k5, k6, k7]
    have hP : pageView (env.PDF o1) = pageView (env.PDF o2) := by
      rw [ho]; exact (hpdf o1 o2._crops).symm
    obtain ⟨rest, r1, r2, r3⟩ := pageBranch_congr env o1 o2 c hP
    have hd1 : dispatch env o1 (.page c) = pageBranch env o1 c := rfl
    have hd2 : dispatch env o2 (.page c) = pageBranch env o2 c := rfl
    rw [main_accept env _ pt1 o1 h1 hu1, main_accept env _ pt2 o2 h2 hu2, hd1, hd2, r1, r2, r3]
    cases (pageBranch env o2 c).2 with
    | ok u => exact ⟨rfl, rest, rfl, rfl⟩
    | error e => exact ⟨rfl, rest ++ [Event.cerr ("Error: " ++ e)], rfl, rfl⟩
  · intro pt loaded i hl hu
    rw [main_reject env (.page c) pt loaded i hl hu]
    refine ⟨rfl, rfl, ?_⟩
    intro ev hev
    simp only [duplicateReport, List.mem_cons, List.mem_map] at hev
    rcases hev with h | ⟨crop, _, h⟩
    · exact ⟨_, h⟩
    · exact ⟨_, h.symm⟩

/-- C7 as amended, at concrete inputs, in surroundings whose `work()` depends on the crops:
one crop of type body against the crops body, title give the same run; the crops body, body
are rejected with status 1. -/
theorem page_path_same_for_accepted_crops_witness :
    ((main (cropWorkEnv 3) (.ok (some (.page pageOne)))
        (.ok (configOf "in.pdf" 300 none "eng" [fullPage "body"]))).exit =
      (main (cropWorkEnv 3) (.ok (some (.page pageOne)))
        (.ok (configOf "in.pdf" 300 none "eng" [fullPage "body", fullPage "title"]))).exit ∧
    ∃ rest, (main (cropWorkEnv 3) (.ok (some (.page pageOne)))
        (.ok (configOf "in.pdf" 300 none "eng" [fullPage "body"]))).trace =
          Event.PDF (samplePageOptions [fullPage "body"]) :: rest ∧
      (main (cropWorkEnv 3) (.ok (some (.page pageOne)))
        (.ok (configOf "in.pdf" 300 none "eng" [fullPage "body", fullPage "title"]))).trace =
          Event.PDF (samplePageOptions [fullPage "body", fullPage "title"]) :: rest) ∧
    (main (cropWorkEnv 3) (.ok (some (.page pageOne)))
        (.ok (configOf "in.pdf" 300 none "eng" [fullPage "body", fullPage "body"]))).exit = 1 :=
  ⟨(page_path_same_for_accepted_crops (cropWorkEnv 3) pageOne).2.1
      (configOf "in.pdf" 300 none "eng" [fullPage "body"])
      (configOf "in.pdf" 300 none "eng" [fullPage "body", fullPage "title"])
      (samplePageOptions [fullPage "body"])
      (samplePageOptions [fullPage "body", fullPage "title"])
      rfl (by decide) (by decide) (by decide) (by decide) (fun _ _ => rfl),
   ((page_path_same_for_accepted_crops (cropWorkEnv 3) pageOne).2.2
      (configOf "in.pdf" 300 none "eng" [fullPage "body", fullPage "body"])
      (samplePageOptions [fullPage "body", fullPage "body"]) 0 (by decide) (by decide)).1⟩

/-- C8, at inputs where the code departs from it: requested page -1 on a 3-page document,
and no requested page on a document without pages. In the first run `main` calls
`get_page(-1)`, in the second `get_page(0)`; neither index lies in the range from 0 up to the
page count. -/
theorem get_page_called_out_of_range :
    Event.get_page (-1) ∈
      (main (sampleEnv 3) (.ok (some (.page { _page := some (-1), _path := "page.png" })))
        (.ok (configOf "in.pdf" 300 none "eng" []))).trace ∧
    Event.get_page 0 ∈
      (main (sampleEnv 0) (.ok (some (.page { _page := none, _path := "page.png" })))
        (.ok (configOf "in.pdf" 300 none "eng" []))).trace := by
  decide

/-- C9, at an input where the code departs from it: the declared crops have the types
title, date, title, body, body. The check rejects, and the report lists body only; title,
which also occurs twice, is not reported. -/
theorem duplicate_report_misses_a_type :
    main (sampleEnv 3) (.ok (some humanAll))
        (.ok (configOf "in.pdf" 300 none "eng"
          [fullPage "title", fullPage "date", fullPage "title", fullPage "body",
           fullPage "body"])) =
      { exit := 1
        trace := [Event.cerr "ERROR: duplicate crop types:", Event.cerr "\tbody"] } := by
  decide

/-- C10: for every command and every declared crop sequence with pairwise distinct types, in
a config file whose other reads succeed. `std::unique` returns `end()` and leaves the sequence
as it is; the loaded options are the constructed ones after one `addCrop` per declared crop, in
order; their crop list is the declared sequence; the first action of `main` is the
construction of the `PDF` from options with exactly this crop list; and `addCrop` appends its
argument at the end and leaves every other field as it was. -/
theorem distinct_crops_are_handed_over (env : Env) (command : Command) (inputPDF : String)
    (dpi : Int) (pp : Option Bool) (language : String) (declared : List Crop)
    (hd : (declared.map Crop.type).Nodup) :
    unique env declared = (declared, declared.length) ∧
    fillOptions (configOf inputPDF dpi pp language declared) =
      some (declared.foldl Options.addCrop
        (Options.construct inputPDF dpi (pp.getD false) language)) ∧
    (declared.foldl Options.addCrop
        (Options.construct inputPDF dpi (pp.getD false) language))._crops = declared ∧
    (∃ o rest, (main env (.ok (some command))
        (.ok (configOf inputPDF dpi pp language declared))).trace = Event.PDF o :: rest ∧
      o._crops = declared) ∧
    (∀ (o : Options) (c : Crop),
      (o.addCrop c)._crops = o._crops ++ [c] ∧ (o.addCrop c)._inputPDF = o._inputPDF ∧
      (o.addCrop c)._dpi = o._dpi ∧
      (o.addCrop c)._parallel_processing = o._parallel_processing ∧
      (o.addCrop c)._language = o._language ∧ (o.addCrop c)._start = o._start ∧
      (o.addCrop c)._end = o._end ∧ (o.addCrop c)._page = o._page) := by
  have hcrops : (declared.foldl Options.addCrop
      (Options.construct inputPDF dpi (pp.getD false) language))._crops = declared := by
    rw [foldl_addCrop]; simp [Options.construct]
  have hnone : adjacent_find 0 declared = none := adjacent_find_of_nodup declared 0 hd
  refine ⟨unique_of_none env declared hnone, fillOptions_configOf _ _ _ _ _, hcrops, ?_, ?_⟩
  · have hl := fillOptions_configOf inputPDF dpi pp language declared
    have hmain := main_accept env command _ _ hl (by rw [hcrops]; exact hnone)
    obtain ⟨rest, hrest⟩ := dispatch_head env
      (declared.foldl Options.addCrop (Options.construct inputPDF dpi (pp.getD false) language))
      command
    obtain ⟨rest2, hrest2⟩ := returnOf_trace_head _ rest (dispatch env
      (declared.foldl Options.addCrop (Options.construct inputPDF dpi (pp.getD false) language))
      command).2 _ hrest
    refine ⟨_, rest2, by rw [hmain]; exact hrest2, ?_⟩
    cases command <;> simpa [withBounds] using hcrops
  · intro o c
    exact ⟨rfl, rfl, rfl, rfl, rfl, rfl, rfl, rfl⟩

/-- C10, at a concrete input: the crops body, title under the JSON-output command. -/
theorem distinct_crops_are_handed_over_witness :
    unique (sampleEnv 3) [fullPage "body", fullPage "title"] =
      ([fullPage "body", fullPage "title"], 2) ∧
    ∃ o rest, (main (sampleEnv 3) (.ok (some (.output outputAll)))
        (.ok (configOf "in.pdf" 300 none "eng" [fullPage "body", fullPage "title"]))).trace =
          Event.PDF o :: rest ∧
      o._crops = [fullPage "body", fullPage "title"] :=
  have h := distinct_crops_are_handed_over (sampleEnv 3) (.output outputAll) "in.pdf" 300 none
    "eng" [fullPage "body", fullPage "title"] (by decide)
  ⟨h.1, h.2.2.2.1⟩

end Potoo
